import Mathlib

/-!
Verification of the agent-spawning modules of CynaCons/powertimeline
(src/agents/parser.py, src/agents/spawner.py, src/agents/mcp_server.py).

The Python code manipulates values decoded by `json.loads`; we embed those
values as the inductive type `Json` below (Python `None` is `Json.null`;
JSON numbers are carried as integers here — no claim depends on float
arithmetic, the numeric payloads are only passed through verbatim).

Python raises `AttributeError` when `.get` is called on a non-dict value,
and only `json.JSONDecodeError` is caught by the parsing functions, so the
embedding of any code path that performs attribute access runs in the
exception monad `Py α := Except String α`; `.error` models an uncaught
Python exception escaping the modelled function.
-/

namespace Agents

/-- A decoded JSON document / Python value (`json.loads` result).
`null` is Python `None`; numbers are modelled as integers (the code never
computes with them, it only passes them through). -/
inductive Json where
  | null : Json
  | bool (b : Bool) : Json
  | num (n : Int) : Json
  | str (s : String) : Json
  | arr (elems : List Json) : Json
  | obj (fields : List (String × Json)) : Json

instance : Inhabited Json := ⟨.null⟩

/-- Exception monad for embedded Python code: `.error msg` models an
uncaught Python exception with the exception class as message. -/
abbrev Py (α : Type) := Except String α

/-- Python `d.get(k)` : `None` when the key is absent, the stored value
otherwise; raises `AttributeError` when `d` is not a dict. -/
def Json.pyGet (j : Json) (k : String) : Py Json :=
  match j with
  | .obj kvs => .ok ((List.lookup k kvs).getD .null)
  | _ => .error "AttributeError"

/-- Python `d.get(k, default)` : the default only applies when the key is
absent (a stored `null` is returned as-is); raises `AttributeError` when
`d` is not a dict. -/
def Json.pyGetD (j : Json) (k : String) (d : Json) : Py Json :=
  match j with
  | .obj kvs => .ok ((List.lookup k kvs).getD d)
  | _ => .error "AttributeError"

/-- Python `x == "lit"` for a string literal: true exactly when `x` is a
string with those characters (no other Python value equals a str). -/
def Json.eqStr (j : Json) (s : String) : Bool :=
  match j with
  | .str t => t == s
  | _ => false

/-- Python truthiness of a decoded value. -/
def Json.truthy : Json → Bool
  | .null => false
  | .bool b => b
  | .num n => n != 0
  | .str s => s != ""
  | .arr l => !l.isEmpty
  | .obj l => !l.isEmpty

/-- Python `x[:n]`: slices strings and lists, raises `TypeError` on
anything else. -/
def Json.pySlice (j : Json) (n : Nat) : Py Json :=
  match j with
  | .str s => .ok (.str ⟨s.data.take n⟩)
  | .arr l => .ok (.arr (l.take n))
  | _ => .error "TypeError"

/-- Total field access used by the pure specification functions:
`getT j k` is the stored value, `null` when absent or when `j` is not an
object (the monadic `pyGet` agrees with it on objects). -/
def Json.getT (j : Json) (k : String) : Json :=
  match j with
  | .obj kvs => (List.lookup k kvs).getD .null
  | _ => .null

/-- Total variant of `d.get(k, default)`. -/
def Json.getTD (j : Json) (k : String) (d : Json) : Json :=
  match j with
  | .obj kvs => (List.lookup k kvs).getD d
  | _ => d

/-- Is the value a JSON object (Python dict)? -/
def Json.isObj : Json → Bool
  | .obj _ => true
  | _ => false

/-- Structure `CodexEvent` from src/agents/spawner.py: an event of the Codex JSONL
stream, carrying the declared `type` and the full decoded payload.
`type` is kept as a `Json` value because `data.get("type", "unknown")`
can produce any JSON value (e.g. a stored `null`). -/
structure CodexEvent where
  type : Json
  data : Json

instance : Inhabited CodexEvent := ⟨⟨.null, .null⟩⟩

/-- Function `parse_codex_event` from src/agents/parser.py, as a function of the
`json.loads` outcome of the line (`.error e` = `JSONDecodeError`, which is
the only exception the function catches). -/
def parse_codex_event (decoded : Except String Json) : Py (Option CodexEvent) :=
  match decoded with
  | .error _ => .ok none
  | .ok data =>
      (data.pyGetD "type" (.str "unknown")).map fun t => some ⟨t, data⟩

/-- Structure `AgentResult` from src/agents/spawner.py (the fields the parsing and
reducing code writes; `spawn_id` is an opaque logging identifier injected
by the callers and is not modelled). Defaults mirror the dataclass
defaults. -/
structure AgentResult where
  success : Bool
  text : Json := .str ""
  structured_output : Json := .null
  session_id : Json := .null
  duration_ms : Json := .num 0
  cost_usd : Json := .num 0
  usage : Json := .obj []
  error : Json := .null

instance : Inhabited AgentResult := ⟨{ success := false }⟩

/-- Function `parse_claude_response` from src/agents/parser.py, as a function of
the `json.loads` outcome (`.error e` = `JSONDecodeError`, the only caught
exception; its message is interpolated into the returned error text). -/
def parse_claude_response (decoded : Except String Json) : Py AgentResult :=
  match decoded with
  | .error e =>
      .ok { success := false, text := .str "",
            error := .str ("Failed to parse JSON response: " ++ e) }
  | .ok data =>
      (data.pyGet "type").bind fun ty =>
      (data.pyGet "subtype").bind fun sub =>
      (data.pyGetD "result" (.str "")).bind fun res =>
      (data.pyGet "structured_output").bind fun so =>
      (data.pyGet "session_id").bind fun sid =>
      (data.pyGetD "duration_ms" (.num 0)).bind fun dur =>
      (data.pyGetD "total_cost_usd" (.num 0)).bind fun cost =>
      (data.pyGetD "usage" (.obj [])).bind fun us =>
      (data.pyGet "result").map fun resNoDefault =>
        { success := ty.eqStr "result" && sub.eqStr "success",
          text := res,
          structured_output := so,
          session_id := sid,
          duration_ms := dur,
          cost_usd := cost,
          usage := us,
          error := if sub.eqStr "success" then .null else resNoDefault }

/-- Property `CodexEvent.is_message`: `self.type == "item.completed" and
self.data.get("item", {}).get("type") == "agent_message"` (the second
conjunct is only evaluated when the first holds — Python short-circuit). -/
def CodexEvent.is_message (e : CodexEvent) : Py Bool :=
  if e.type.eqStr "item.completed" then
    (e.data.pyGetD "item" (.obj [])).bind fun item =>
      (item.pyGet "type").map fun t => t.eqStr "agent_message"
  else .ok false

/-- Property `CodexEvent.is_command`:
`self.data.get("item", {}).get("type") == "command_execution"`. -/
def CodexEvent.is_command (e : CodexEvent) : Py Bool :=
  (e.data.pyGetD "item" (.obj [])).bind fun item =>
    (item.pyGet "type").map fun t => t.eqStr "command_execution"

/-- Property `CodexEvent.text`: the item's `text` when the event is a
message, `None` otherwise. -/
def CodexEvent.text (e : CodexEvent) : Py Json :=
  (e.is_message).bind fun im =>
    if im then
      (e.data.pyGetD "item" (.obj [])).bind fun item => item.pyGet "text"
    else .ok .null

/-- Property `CodexEvent.command_output`: the item's `aggregated_output`
when the event carries a command-execution item, `None` otherwise. -/
def CodexEvent.command_output (e : CodexEvent) : Py Json :=
  (e.is_command).bind fun ic =>
    if ic then
      (e.data.pyGetD "item" (.obj [])).bind fun item =>
        item.pyGet "aggregated_output"
    else .ok .null

/-- The local variables of `spawn_codex`'s event loop
(src/agents/spawner.py lines 300-321), with the initial values of the
Python locals as defaults. -/
structure ReduceState where
  final_text : Json := .str ""
  command_outputs : List Json := []
  usage : Json := .obj []
  session_id : Json := .null
  had_turn_completed : Bool := false
  error : Json := .null

instance : Inhabited ReduceState := ⟨{}⟩

/-- One iteration of `spawn_codex`'s `for event in events` loop: the
`if/elif` chain over `thread.started` / `is_message` / `is_command` /
`turn.completed` / `error`, in source order. -/
def reduceStep (s : ReduceState) (e : CodexEvent) : Py ReduceState :=
  if e.type.eqStr "thread.started" then
    (e.data.pyGet "thread_id").map fun sid => { s with session_id := sid }
  else
    (e.is_message).bind fun im =>
    if im then
      (e.text).map fun t =>
        { s with final_text := if t.truthy then t else .str "" }
    else
      (e.is_command).bind fun ic =>
      if ic then
        (e.command_output).map fun o =>
          if o.truthy then
            { s with command_outputs := s.command_outputs ++ [o] }
          else s
      else if e.type.eqStr "turn.completed" then
        (e.data.pyGetD "usage" (.obj [])).map fun u =>
          { s with usage := u, had_turn_completed := true }
      else if e.type.eqStr "error" then
        (e.data.pyGet "message").map fun m => { s with error := m }
      else .ok s

/-- Is the value exactly Python `None`? (models `x is None`). -/
def Json.isNull : Json → Bool
  | .null => true
  | _ => false

/-- The result-reduction part of `spawn_codex` (src/agents/spawner.py
lines 299-347): folds the decoded event stream into an `AgentResult`.
Process management and logging are outside the model; the input is the
list of events yielded by the stream. -/
def spawn_codex (events : List CodexEvent) : Py AgentResult :=
  (events.foldlM reduceStep {}).bind fun s =>
  let success := s.error.isNull &&
    (!(s.final_text.eqStr "") ||
      (s.had_turn_completed && !s.command_outputs.isEmpty))
  (if !s.final_text.truthy && !s.command_outputs.isEmpty then
      ((s.command_outputs.getLast?).getD .null).pySlice 5000
    else .ok s.final_text).map fun ft =>
  { success := success,
    text := ft,
    session_id := s.session_id,
    usage := s.usage,
    error := s.error }

/-! ### Pure specification layer for the event loop

The monadic embedding above mirrors the Python code including its
exception behaviour.  To state readable theorems we also define total
("T") versions of the event classification, which agree with the monadic
ones on well-shaped events (`wfEvent`), and per-aspect summaries of a
whole event sequence. -/

/-- The `item` sub-object used by the event properties:
`data.get("item", {})`, read totally. -/
def itemOfT (e : CodexEvent) : Json := e.data.getTD "item" (.obj [])

/-- Total version of `is_message`. -/
def isMessageT (e : CodexEvent) : Bool :=
  e.type.eqStr "item.completed" && ((itemOfT e).getT "type").eqStr "agent_message"

/-- Total version of `is_command`. -/
def isCommandT (e : CodexEvent) : Bool :=
  ((itemOfT e).getT "type").eqStr "command_execution"

/-- Which branch of the `for event in events` chain handles the event. -/
inductive EvBranch where
  | threadStarted
  | message
  | command
  | turn
  | err
  | other
deriving DecidableEq, BEq, Repr

/-- Branch selection, in the source order of the `if/elif` chain. -/
def branchOf (e : CodexEvent) : EvBranch :=
  if e.type.eqStr "thread.started" then .threadStarted
  else if isMessageT e then .message
  else if isCommandT e then .command
  else if e.type.eqStr "turn.completed" then .turn
  else if e.type.eqStr "error" then .err
  else .other

/-- Python `event.text or ""` for a message event, read totally. -/
def msgTextOf (e : CodexEvent) : Json :=
  let t := (itemOfT e).getT "text"
  if t.truthy then t else .str ""

/-- Python `event.command_output` for a command event, read totally. -/
def cmdOutOf (e : CodexEvent) : Json := (itemOfT e).getT "aggregated_output"

/-- Is the value a string or `None`? -/
def strOrNull : Json → Bool
  | .null => true
  | .str _ => true
  | _ => false

/-- Well-shapedness of the `item` field value (`none` = key absent). -/
def wfItem : Option Json → Bool
  | none => true
  | some (.obj ikvs) =>
      strOrNull ((List.lookup "aggregated_output" ikvs).getD .null)
  | some _ => false

/-- Well-shaped event: the payload is an object, and its `item` field — if
present — is an object whose `aggregated_output` is a string or absent.
Every event a real Codex stream decodes to satisfies this; events outside
this set make the Python loop raise `AttributeError`/`TypeError` instead
of producing an outcome. -/
def wfEvent (e : CodexEvent) : Bool :=
  match e.data with
  | .obj kvs => wfItem (List.lookup "item" kvs)
  | _ => false

/-- The pure counterpart of `reduceStep`, defined on the branch view. -/
def pureStep (s : ReduceState) (e : CodexEvent) : ReduceState :=
  match branchOf e with
  | .threadStarted => { s with session_id := e.data.getT "thread_id" }
  | .message => { s with final_text := msgTextOf e }
  | .command =>
      if (cmdOutOf e).truthy then
        { s with command_outputs := s.command_outputs ++ [cmdOutOf e] }
      else s
  | .turn => { s with usage := e.data.getTD "usage" (.obj []), had_turn_completed := true }
  | .err => { s with error := e.data.getT "message" }
  | .other => s

theorem pyBind_ok {α β : Type} (a : α) (f : α → Py β) :
    (Except.ok a : Py α).bind f = f a := rfl

theorem pyMap_ok {α β : Type} (f : α → β) (a : α) :
    Except.map f (.ok a : Py α) = .ok (f a) := rfl

theorem pyGet_of_isObj (j : Json) (k : String) (h : j.isObj = true) :
    j.pyGet k = .ok (j.getT k) := by
  cases j <;> simp_all [Json.isObj, Json.pyGet, Json.getT]

theorem pyGetD_of_isObj (j : Json) (k : String) (d : Json) (h : j.isObj = true) :
    j.pyGetD k d = .ok (j.getTD k d) := by
  cases j <;> simp_all [Json.isObj, Json.pyGetD, Json.getTD]

theorem wfEvent_data_isObj (e : CodexEvent) (h : wfEvent e = true) :
    e.data.isObj = true := by
  obtain ⟨ty, data⟩ := e
  cases data with
  | obj kvs => rfl
  | null => exact Bool.noConfusion h
  | bool b => exact Bool.noConfusion h
  | num n => exact Bool.noConfusion h
  | str s => exact Bool.noConfusion h
  | arr l => exact Bool.noConfusion h

theorem wfEvent_item_isObj (e : CodexEvent) (h : wfEvent e = true) :
    (itemOfT e).isObj = true := by
  obtain ⟨ty, data⟩ := e
  cases data with
  | obj kvs =>
      have h' : wfItem (List.lookup "item" kvs) = true := h
      show ((Json.obj kvs).getTD "item" (.obj [])).isObj = true
      simp only [Json.getTD]
      cases hl : List.lookup "item" kvs with
      | none => rfl
      | some it =>
          rw [hl] at h'
          cases it <;> simp_all [wfItem, Json.isObj]
  | null => exact Bool.noConfusion h
  | bool b => exact Bool.noConfusion h
  | num n => exact Bool.noConfusion h
  | str s => exact Bool.noConfusion h
  | arr l => exact Bool.noConfusion h

theorem wfEvent_cmdOut_strOrNull (e : CodexEvent) (h : wfEvent e = true) :
    strOrNull (cmdOutOf e) = true := by
  obtain ⟨ty, data⟩ := e
  cases data with
  | obj kvs =>
      have h' : wfItem (List.lookup "item" kvs) = true := h
      show strOrNull (((Json.obj kvs).getTD "item" (.obj [])).getT "aggregated_output") = true
      simp only [Json.getTD]
      cases hl : List.lookup "item" kvs with
      | none => rfl
      | some it =>
          rw [hl] at h'
          cases it <;> simp_all [wfItem, Json.getT, strOrNull]
  | null => exact Bool.noConfusion h
  | bool b => exact Bool.noConfusion h
  | num n => exact Bool.noConfusion h
  | str s => exact Bool.noConfusion h
  | arr l => exact Bool.noConfusion h

theorem pyGetD_item_wf (e : CodexEvent) (h : wfEvent e = true) :
    e.data.pyGetD "item" (.obj []) = .ok (itemOfT e) := by
  rw [pyGetD_of_isObj _ _ _ (wfEvent_data_isObj e h)]
  rfl

theorem is_message_wf (e : CodexEvent) (h : wfEvent e = true) :
    e.is_message = .ok (isMessageT e) := by
  unfold CodexEvent.is_message isMessageT
  by_cases ht : e.type.eqStr "item.completed"
  · rw [if_pos ht, pyGetD_item_wf e h, pyBind_ok,
      pyGet_of_isObj _ _ (wfEvent_item_isObj e h), pyMap_ok]
    simp [ht]
  · rw [if_neg ht]
    simp [ht]

theorem is_command_wf (e : CodexEvent) (h : wfEvent e = true) :
    e.is_command = .ok (isCommandT e) := by
  unfold CodexEvent.is_command isCommandT
  rw [pyGetD_item_wf e h, pyBind_ok,
    pyGet_of_isObj _ _ (wfEvent_item_isObj e h), pyMap_ok]

theorem text_wf (e : CodexEvent) (h : wfEvent e = true)
    (hm : isMessageT e = true) :
    e.text = .ok ((itemOfT e).getT "text") := by
  unfold CodexEvent.text
  rw [is_message_wf e h, hm, pyBind_ok]
  simp only [if_true]
  rw [pyGetD_item_wf e h, pyBind_ok,
    pyGet_of_isObj _ _ (wfEvent_item_isObj e h)]

theorem command_output_wf (e : CodexEvent) (h : wfEvent e = true)
    (hc : isCommandT e = true) :
    e.command_output = .ok (cmdOutOf e) := by
  unfold CodexEvent.command_output cmdOutOf
  rw [is_command_wf e h, hc, pyBind_ok]
  simp only [if_true]
  rw [pyGetD_item_wf e h, pyBind_ok,
    pyGet_of_isObj _ _ (wfEvent_item_isObj e h)]

theorem reduceStep_wf (s : ReduceState) (e : CodexEvent)
    (h : wfEvent e = true) : reduceStep s e = .ok (pureStep s e) := by
  have hobj := wfEvent_data_isObj e h
  unfold reduceStep pureStep branchOf
  by_cases h1 : e.type.eqStr "thread.started" = true
  · simp [h1, pyGet_of_isObj _ _ hobj, pyMap_ok]
  · rw [is_message_wf e h]
    by_cases h2 : isMessageT e = true
    · simp only [h1, h2, if_false, if_true, Bool.false_eq_true, pyBind_ok]
      rw [text_wf e h h2, pyMap_ok]
      simp [msgTextOf]
    · rw [is_command_wf e h]
      by_cases h3 : isCommandT e = true
      · simp only [h1, h2, h3, if_false, if_true, Bool.false_eq_true, pyBind_ok]
        rw [command_output_wf e h h3, pyMap_ok]
      · by_cases h4 : e.type.eqStr "turn.completed" = true
        · simp only [h1, h2, h3, h4, if_false, if_true, Bool.false_eq_true, pyBind_ok]
          rw [pyGetD_of_isObj _ _ _ hobj, pyMap_ok]
        · by_cases h5 : e.type.eqStr "error" = true
          · simp only [h1, h2, h3, h4, h5, if_false, if_true, Bool.false_eq_true, pyBind_ok]
            rw [pyGet_of_isObj _ _ hobj, pyMap_ok]
          · simp [h1, h2, h3, h4, h5, pyBind_ok]

theorem pyBindM_ok {α β : Type} (a : α) (f : α → Py β) :
    ((Except.ok a : Py α) >>= f) = f a := rfl

theorem foldlM_reduceStep_wf (evs : List CodexEvent) :
    ∀ s : ReduceState, (∀ e ∈ evs, wfEvent e = true) →
      evs.foldlM reduceStep s = .ok (evs.foldl pureStep s) := by
  induction evs with
  | nil => intro s _; rfl
  | cons e evs ih =>
      intro s h
      have he : wfEvent e = true := h e (List.mem_cons_self e evs)
      have ht : ∀ x ∈ evs, wfEvent x = true :=
        fun x hx => h x (List.mem_cons_of_mem e hx)
      rw [List.foldlM_cons, reduceStep_wf s e he, pyBindM_ok, List.foldl_cons]
      exact ih (pureStep s e) ht

/-- The last element of the list satisfying `p` (the "last write" of a
loop that overwrites a variable on every `p`-event). -/
def lastFind {α : Type} (p : α → Prop) [DecidablePred p] : List α → Option α
  | [] => none
  | x :: xs =>
      match lastFind p xs with
      | some y => some y
      | none => if p x then some x else none

/-- The final value of `spawn_codex`'s `final_text` variable before the
fallback: the last message event's `text or ""`, or `""` if no message
event was handled. -/
def finalTextOf (evs : List CodexEvent) : Json :=
  match lastFind (fun e => branchOf e = .message) evs with
  | some e => msgTextOf e
  | none => .str ""

/-- The captured command outputs, in arrival order: the truthy
`aggregated_output` of every event handled by the command branch. -/
def commandOutputsOf : List CodexEvent → List Json
  | [] => []
  | e :: evs =>
      (if branchOf e = .command ∧ (cmdOutOf e).truthy then [cmdOutOf e] else [])
        ++ commandOutputsOf evs

/-- Was any event handled by the `turn.completed` branch? -/
def hadTurnOf : List CodexEvent → Bool
  | [] => false
  | e :: evs => (if branchOf e = .turn then true else hadTurnOf evs)

/-- The final value of the reducer's `error` variable: the `message`
payload of the last event handled by the error branch, `None` if none. -/
def errorOf (evs : List CodexEvent) : Json :=
  match lastFind (fun e => branchOf e = .err) evs with
  | some e => e.data.getT "message"
  | none => .null

/-- The final value of the reducer's `session_id` variable. -/
def sessionOf (evs : List CodexEvent) : Json :=
  match lastFind (fun e => branchOf e = .threadStarted) evs with
  | some e => e.data.getT "thread_id"
  | none => .null

/-- The final value of the reducer's `usage` variable. -/
def usageOf (evs : List CodexEvent) : Json :=
  match lastFind (fun e => branchOf e = .turn) evs with
  | some e => e.data.getTD "usage" (.obj [])
  | none => .obj []

theorem pureStep_final_text (s : ReduceState) (e : CodexEvent) :
    (pureStep s e).final_text =
      if branchOf e = .message then msgTextOf e else s.final_text := by
  unfold pureStep
  cases hb : branchOf e <;> simp [hb, msgTextOf] <;> split <;> rfl

theorem pureStep_command_outputs (s : ReduceState) (e : CodexEvent) :
    (pureStep s e).command_outputs = s.command_outputs ++
      (if branchOf e = .command ∧ (cmdOutOf e).truthy then [cmdOutOf e] else []) := by
  unfold pureStep
  cases hb : branchOf e <;> simp [hb] <;> split <;> simp_all

theorem pureStep_had_turn (s : ReduceState) (e : CodexEvent) :
    (pureStep s e).had_turn_completed =
      if branchOf e = .turn then true else s.had_turn_completed := by
  unfold pureStep
  cases hb : branchOf e <;> simp [hb] <;> split <;> rfl

theorem pureStep_error (s : ReduceState) (e : CodexEvent) :
    (pureStep s e).error =
      if branchOf e = .err then e.data.getT "message" else s.error := by
  unfold pureStep
  cases hb : branchOf e <;> simp [hb] <;> split <;> rfl

theorem pureStep_session (s : ReduceState) (e : CodexEvent) :
    (pureStep s e).session_id =
      if branchOf e = .threadStarted then e.data.getT "thread_id" else s.session_id := by
  unfold pureStep
  cases hb : branchOf e <;> simp [hb] <;> split <;> rfl

theorem pureStep_usage (s : ReduceState) (e : CodexEvent) :
    (pureStep s e).usage =
      if branchOf e = .turn then e.data.getTD "usage" (.obj []) else s.usage := by
  unfold pureStep
  cases hb : branchOf e <;> simp [hb] <;> split <;> rfl

theorem lastFind_cons {α : Type} (p : α → Prop) [DecidablePred p]
    (x : α) (xs : List α) :
    lastFind p (x :: xs) =
      match lastFind p xs with
      | some y => some y
      | none => if p x then some x else none := rfl

theorem foldl_final_text (evs : List CodexEvent) :
    ∀ s : ReduceState, (evs.foldl pureStep s).final_text =
      match lastFind (fun e => branchOf e = .message) evs with
      | some e => msgTextOf e
      | none => s.final_text := by
  induction evs with
  | nil => intro s; rfl
  | cons e evs ih =>
      intro s
      rw [List.foldl_cons, ih (pureStep s e), lastFind_cons]
      cases hl : lastFind (fun e => branchOf e = .message) evs with
      | some y => rfl
      | none =>
          rw [pureStep_final_text]
          by_cases hb : branchOf e = .message <;> simp [hb]

theorem commandOutputsOf_cons (e : CodexEvent) (evs : List CodexEvent) :
    commandOutputsOf (e :: evs) =
      (if branchOf e = .command ∧ (cmdOutOf e).truthy then [cmdOutOf e] else [])
        ++ commandOutputsOf evs := rfl

theorem hadTurnOf_cons (e : CodexEvent) (evs : List CodexEvent) :
    hadTurnOf (e :: evs) =
      (if branchOf e = .turn then true else hadTurnOf evs) := rfl

theorem foldl_command_outputs (evs : List CodexEvent) :
    ∀ s : ReduceState, (evs.foldl pureStep s).command_outputs =
      s.command_outputs ++ commandOutputsOf evs := by
  induction evs with
  | nil => intro s; simp [commandOutputsOf]
  | cons e evs ih =>
      intro s
      rw [List.foldl_cons, ih (pureStep s e), pureStep_command_outputs,
        commandOutputsOf_cons]
      simp

theorem foldl_had_turn (evs : List CodexEvent) :
    ∀ s : ReduceState, (evs.foldl pureStep s).had_turn_completed =
      (if hadTurnOf evs then true else s.had_turn_completed) := by
  induction evs with
  | nil => intro s; simp [hadTurnOf]
  | cons e evs ih =>
      intro s
      rw [List.foldl_cons, ih (pureStep s e), pureStep_had_turn, hadTurnOf_cons]
      by_cases hb : branchOf e = .turn <;> simp [hb]

theorem foldl_error (evs : List CodexEvent) :
    ∀ s : ReduceState, (evs.foldl pureStep s).error =
      match lastFind (fun e => branchOf e = .err) evs with
      | some e => e.data.getT "message"
      | none => s.error := by
  induction evs with
  | nil => intro s; rfl
  | cons e evs ih =>
      intro s
      rw [List.foldl_cons, ih (pureStep s e), lastFind_cons]
      cases hl : lastFind (fun e => branchOf e = .err) evs with
      | some y => rfl
      | none =>
          rw [pureStep_error]
          by_cases hb : branchOf e = .err <;> simp [hb]

theorem foldl_session (evs : List CodexEvent) :
    ∀ s : ReduceState, (evs.foldl pureStep s).session_id =
      match lastFind (fun e => branchOf e = .threadStarted) evs with
      | some e => e.data.getT "thread_id"
      | none => s.session_id := by
  induction evs with
  | nil => intro s; rfl
  | cons e evs ih =>
      intro s
      rw [List.foldl_cons, ih (pureStep s e), lastFind_cons]
      cases hl : lastFind (fun e => branchOf e = .threadStarted) evs with
      | some y => rfl
      | none =>
          rw [pureStep_session]
          by_cases hb : branchOf e = .threadStarted <;> simp [hb]

theorem commandOutputsOf_str (evs : List CodexEvent)
    (h : ∀ e ∈ evs, wfEvent e = true) :
    ∀ x ∈ commandOutputsOf evs, ∃ s, x = .str s ∧ s ≠ "" := by
  induction evs with
  | nil => intro x hx; exact absurd hx (by simp [commandOutputsOf])
  | cons e evs ih =>
      intro x hx
      rw [commandOutputsOf_cons] at hx
      rcases List.mem_append.mp hx with hx1 | hx2
      · by_cases hc : branchOf e = .command ∧ (cmdOutOf e).truthy = true
        · rw [if_pos hc] at hx1
          have hxe : x = cmdOutOf e := by simpa using hx1
          have hsn := wfEvent_cmdOut_strOrNull e (h e (List.mem_cons_self e evs))
          subst hxe
          cases ho : cmdOutOf e with
          | str s =>
              refine ⟨s, rfl, ?_⟩
              have := hc.2
              rw [ho] at this
              simpa [Json.truthy] using this
          | null => rw [ho] at hc; exact absurd hc.2 (by simp [Json.truthy])
          | bool b => rw [ho] at hsn; exact absurd hsn (by simp [strOrNull])
          | num n => rw [ho] at hsn; exact absurd hsn (by simp [strOrNull])
          | arr l => rw [ho] at hsn; exact absurd hsn (by simp [strOrNull])
          | obj kvs => rw [ho] at hsn; exact absurd hsn (by simp [strOrNull])
        · rw [if_neg hc] at hx1
          exact absurd hx1 (by simp)
      · exact ih (fun e' he' => h e' (List.mem_cons_of_mem e he')) x hx2

/-- Python `x[:5000]` for sliceable values, identity elsewhere (used only where
well-shapedness guarantees a string). -/
def truncate5000 : Json → Json
  | .str s => .str ⟨s.data.take 5000⟩
  | .arr l => .arr (l.take 5000)
  | j => j

theorem foldl_usage (evs : List CodexEvent) :
    ∀ s : ReduceState, (evs.foldl pureStep s).usage =
      match lastFind (fun e => branchOf e = .turn) evs with
      | some e => e.data.getTD "usage" (.obj [])
      | none => s.usage := by
  induction evs with
  | nil => intro s; rfl
  | cons e evs ih =>
      intro s
      rw [List.foldl_cons, ih (pureStep s e), lastFind_cons]
      cases hl : lastFind (fun e => branchOf e = .turn) evs with
      | some y => rfl
      | none =>
          rw [pureStep_usage]
          by_cases hb : branchOf e = .turn <;> simp [hb]

/-! ### The MCP server's in-memory agent registry (src/agents/mcp_server.py)

`running_agents` and `completed_agents` are module-level Python dicts.
Python dicts preserve insertion order; assignment to an existing key keeps
its position, assignment to a new key appends.  We model them as
association lists in insertion order. -/

/-- Python dict assignment `m[k] = v`. -/
def pyDictSet (m : List (String × Json)) (k : String) (v : Json) :
    List (String × Json) :=
  if (List.lookup k m).isSome then
    m.map (fun p => if p.1 = k then (k, v) else p)
  else m ++ [(k, v)]

/-- Python `del m[k]` guarded by `if k in m` (removing the key keeps the
order of the remaining entries). -/
def pyDictDel (m : List (String × Json)) (k : String) : List (String × Json) :=
  m.filter (fun p => p.1 != k)

/-- The two registry mappings of the MCP server. -/
structure Registry where
  running : List (String × Json) := []
  completed : List (String × Json) := []

/-- The completion tail of `_run_spawn_claude_background` (and of
`_run_spawn_codex_background`, lines 249-278 / 349-375): store the outcome
record under the spawn id in `completed_agents` and drop the id from
`running_agents`.  The source has no eviction step and no lock. -/
def completeSpawn (st : Registry) (id : String) (rec : Json) : Registry :=
  { st with
    completed := pyDictSet st.completed id rec,
    running := pyDictDel st.running id }

/-- A sequence of background completions, in order. -/
def completeAll (st : Registry) (xs : List (String × Json)) : Registry :=
  xs.foldl (fun s p => completeSpawn s p.1 p.2) st

/-- Python `list(completed_agents.keys())[-100:]` — the "recent completed" view
built by `handle_list_running` (line 448).  Only this *view* is bounded;
the mapping itself is not. -/
def recentCompletedKeys (st : Registry) : List String :=
  let ks := st.completed.map Prod.fst
  ks.drop (ks.length - 100)

theorem lookup_isSome_iff (m : List (String × Json)) (k : String) :
    (List.lookup k m).isSome = true ↔ k ∈ m.map Prod.fst := by
  induction m with
  | nil => simp [List.lookup]
  | cons p m ih =>
      obtain ⟨a, b⟩ := p
      by_cases hk : k = a
      · subst hk; simp [List.lookup]
      · have : (k == a) = false := by simp [hk]
        simp [List.lookup, this, hk, ih]

theorem keys_pyDictSet (m : List (String × Json)) (k : String) (v : Json) :
    (pyDictSet m k v).map Prod.fst =
      if k ∈ m.map Prod.fst then m.map Prod.fst else m.map Prod.fst ++ [k] := by
  unfold pyDictSet
  by_cases h : (List.lookup k m).isSome = true
  · rw [if_pos h, if_pos ((lookup_isSome_iff m k).mp h), List.map_map]
    apply List.map_congr_left
    intro p _
    dsimp
    by_cases hp : p.1 = k
    · simp [hp]
    · simp [hp]
  · rw [if_neg h, if_neg (fun hm => h ((lookup_isSome_iff m k).mpr hm))]
    simp

theorem mem_keys_completeSpawn (st : Registry) (id : String) (rec : Json)
    (k : String) (h : k ∈ st.completed.map Prod.fst ∨ k = id) :
    k ∈ (completeSpawn st id rec).completed.map Prod.fst := by
  unfold completeSpawn
  dsimp
  rw [keys_pyDictSet]
  by_cases hid : id ∈ st.completed.map Prod.fst
  · rw [if_pos hid]
    rcases h with h | h
    · exact h
    · exact h ▸ hid
  · rw [if_neg hid]
    rcases h with h | h
    · exact List.mem_append.mpr (Or.inl h)
    · exact List.mem_append.mpr (Or.inr (by simp [h]))

theorem completeAll_mem_preserved (xs : List (String × Json)) :
    ∀ (st : Registry) (k : String), k ∈ st.completed.map Prod.fst →
      k ∈ (completeAll st xs).completed.map Prod.fst := by
  induction xs with
  | nil => intro st k h; exact h
  | cons p xs ih =>
      intro st k h
      exact ih _ k (mem_keys_completeSpawn st p.1 p.2 k (Or.inl h))

theorem completeAll_mem (xs : List (String × Json)) :
    ∀ (st : Registry) (p : String × Json), p ∈ xs →
      p.1 ∈ (completeAll st xs).completed.map Prod.fst := by
  induction xs with
  | nil => intro st p h; exact absurd h (List.not_mem_nil p)
  | cons q xs ih =>
      intro st p h
      rcases List.mem_cons.mp h with h | h
      · subst h
        exact completeAll_mem_preserved xs _ p.1
          (mem_keys_completeSpawn st p.1 p.2 p.1 (Or.inr rfl))
      · exact ih _ p h

/-! ### `handle_get_result` (src/agents/mcp_server.py lines 469-512) -/

/-- The four response shapes `handle_get_result` can produce (each is
rendered as a JSON text; we keep the discriminating fields). -/
inductive GetResultShape where
  | completedRec (record : Json)
  | runningInfo (elapsed : Int)
  | runningFromLogger
  | notFound

/-- Handler `handle_get_result`: priority order completed → running → logger →
not_found.  `loggerActive` models `get_logger().active_spawns` (the
logger module is not among the sources; per the handler's own comment it
holds "spawns started before this MCP session") as the set of ids the
persistent logger considers active; `elapsed` abstracts the wall-clock
computation `now - started_at`. -/
def handle_get_result (completed running : List (String × Json))
    (loggerActive : List String) (spawn_id : String) (elapsed : Int) :
    GetResultShape :=
  match List.lookup spawn_id completed with
  | some rec => .completedRec rec
  | none =>
      if (List.lookup spawn_id running).isSome then .runningInfo elapsed
      else if loggerActive.contains spawn_id then .runningFromLogger
      else .notFound

/-! ### `spawn_claude` result handling (src/agents/spawner.py lines 164-208) -/

/-- The post-`subprocess.run` logic of `spawn_claude`: given the exit
code, captured stdout/stderr and the `json.loads` outcome of stdout,
produce the returned `AgentResult` (logging and the `spawn_id` tag are
outside the model).  Mirrors
`if result.returncode != 0 and not result.stdout:` and
`error_msg = result.stderr or f"Exit code {result.returncode}"`. -/
def spawn_claude_post (returncode : Int) (stdout stderr : String)
    (decoded : Except String Json) : Py AgentResult :=
  if returncode ≠ 0 ∧ stdout = "" then
    .ok { success := false, text := .str "",
          error := .str (if stderr ≠ "" then stderr
            else "Exit code " ++ toString returncode) }
  else parse_claude_response decoded

/-! ### Default-timeout selection (src/agents/mcp_server.py lines 289-294
and 384-389) -/

/-- Python's ASCII `str.lower()` over the characters (the tasks and
prompts involved are ASCII; `Char.toLower` lowers exactly ASCII
uppercase). -/
def strLower (s : String) : String := ⟨s.data.map Char.toLower⟩

/-- Does `pat` start the list? (`startsWith pat l`). -/
def charsStartWith : List Char → List Char → Bool
  | [], _ => true
  | _ :: _, [] => false
  | p :: ps, c :: cs => p == c && charsStartWith ps cs

/-- Python substring membership `pat in s` on the character lists. -/
def charsContain (pat : List Char) : List Char → Bool
  | [] => charsStartWith pat []
  | c :: cs => charsStartWith pat (c :: cs) || charsContain pat cs

/-- Python `pat in s` for strings. -/
def strContains (s pat : String) : Bool := charsContain pat.data s.data

/-- Python `a or b` for an optional string `a` (`None` and `""` are both
falsy). -/
def pyOrStr (a : Option String) (b : String) : String :=
  match a with
  | some s => if s ≠ "" then s else b
  | none => b

/-- Timeout selection of `handle_spawn_claude`:
`task_label = (task_summary or prompt).lower()`;
`600` default for test tasks, `300` otherwise; an explicit `timeout`
argument always wins. -/
def handle_spawn_claude_timeout (task_summary : Option String)
    (prompt : String) (timeoutArg : Option Int) : Int :=
  let label := strLower (pyOrStr task_summary prompt)
  if strContains label "test" then timeoutArg.getD 600
  else timeoutArg.getD 300

/-- Timeout selection of `handle_spawn_codex`:
`task_label = prompt.lower()`; `300` default for test tasks, `120`
otherwise; an explicit `timeout` argument always wins. -/
def handle_spawn_codex_timeout (prompt : String)
    (timeoutArg : Option Int) : Int :=
  let label := strLower prompt
  if strContains label "test" then timeoutArg.getD 300
  else timeoutArg.getD 120

/-- Bridge: on well-shaped event sequences `spawn_codex` returns (without
raising) the outcome record whose every field is given by the per-aspect
summaries of the sequence. -/
theorem spawn_codex_wf_eq (evs : List CodexEvent)
    (h : ∀ e ∈ evs, wfEvent e = true) :
    spawn_codex evs = .ok
      { success := (errorOf evs).isNull &&
          (!((finalTextOf evs).eqStr "") ||
            (hadTurnOf evs && !(commandOutputsOf evs).isEmpty)),
        text := if !(finalTextOf evs).truthy && !(commandOutputsOf evs).isEmpty
          then truncate5000 (((commandOutputsOf evs).getLast?).getD .null)
          else finalTextOf evs,
        session_id := sessionOf evs,
        usage := usageOf evs,
        error := errorOf evs } := by
  unfold spawn_codex
  rw [foldlM_reduceStep_wf evs {} h, pyBind_ok]
  have hft : (evs.foldl pureStep {}).final_text = finalTextOf evs := by
    rw [foldl_final_text]
    unfold finalTextOf
    rfl
  have houts : (evs.foldl pureStep {}).command_outputs = commandOutputsOf evs := by
    rw [foldl_command_outputs]
    rfl
  have hturn : (evs.foldl pureStep {}).had_turn_completed = hadTurnOf evs := by
    rw [foldl_had_turn]
    cases hadTurnOf evs <;> rfl
  have herr : (evs.foldl pureStep {}).error = errorOf evs := by
    rw [foldl_error]
    unfold errorOf
    rfl
  have hsess : (evs.foldl pureStep {}).session_id = sessionOf evs := by
    rw [foldl_session]
    unfold sessionOf
    rfl
  have husage : (evs.foldl pureStep {}).usage = usageOf evs := by
    rw [foldl_usage]
    unfold usageOf
    rfl
  rw [hft, houts, hturn, herr, hsess, husage]
  by_cases hcond :
      (!(finalTextOf evs).truthy && !(commandOutputsOf evs).isEmpty) = true
  · rw [if_pos hcond, if_pos hcond]
    have hne : commandOutputsOf evs ≠ [] := by
      intro hnil
      rw [hnil] at hcond
      simp at hcond
    have hlast := List.getLast?_eq_getLast_of_ne_nil hne
    have hmem : (commandOutputsOf evs).getLast hne ∈ commandOutputsOf evs :=
      List.getLast_mem hne
    obtain ⟨str, hstr, _⟩ := commandOutputsOf_str evs h _ hmem
    rw [hlast]
    simp only [Option.getD_some, hstr]
    rw [show (Json.str str).pySlice 5000 = .ok (truncate5000 (.str str)) from rfl,
      pyMap_ok]
  · rw [if_neg hcond, if_neg hcond, pyMap_ok]

/-- Lemma input shape: `finalTextOf` is either truthy or exactly the empty string (the loop
writes `event.text or ""`). -/
theorem finalTextOf_truthy_or_empty (evs : List CodexEvent) :
    (finalTextOf evs).truthy = true ∨ finalTextOf evs = .str "" := by
  unfold finalTextOf
  cases lastFind (fun e => branchOf e = .message) evs with
  | none => right; rfl
  | some e =>
      unfold msgTextOf
      by_cases ht : ((itemOfT e).getT "text").truthy = true
      · left; simpa [ht] using ht
      · right; simp [ht]

/-- The `message` payload of the first event whose declared type is
`"error"` (what the spec's "first-seen error payload" denotes). -/
def firstErrorOf (evs : List CodexEvent) : Json :=
  match evs.find? (fun e => e.type.eqStr "error") with
  | some e => e.data.getT "message"
  | none => .null

/-! ### Concrete events used in the witnesses and counterexamples -/

/-- A completed agent message with text `t`. -/
def msgEvent (t : String) : CodexEvent :=
  ⟨.str "item.completed",
    .obj [("type", .str "item.completed"),
          ("item", .obj [("type", .str "agent_message"), ("text", .str t)])]⟩

/-- A completed command execution with aggregated output `out`. -/
def cmdEvent (out : String) : CodexEvent :=
  ⟨.str "item.completed",
    .obj [("type", .str "item.completed"),
          ("item", .obj [("type", .str "command_execution"),
                         ("aggregated_output", .str out)])]⟩

/-- A `turn.completed` event with an empty usage payload. -/
def turnEvent : CodexEvent :=
  ⟨.str "turn.completed", .obj [("type", .str "turn.completed"), ("usage", .obj [])]⟩

/-- An `error` event carrying a message payload. -/
def errEvent (m : String) : CodexEvent :=
  ⟨.str "error", .obj [("type", .str "error"), ("message", .str m)]⟩

/-- An `error` event whose payload has no `message` field. -/
def errEventNoMsg : CodexEvent :=
  ⟨.str "error", .obj [("type", .str "error")]⟩

/-! ## Claim C1 -/

/-- Claim C1, counterexample: the sequence contains an event of declared
type `"error"` (whose payload simply lacks a `message` field), yet the
reducer reports `success = true` — refuting "success iff no event of type
error occurred AND ...": the reducer keys success on the tracked error
*message*, not on the presence of error events. -/
theorem c1_counterexample :
    (spawn_codex [errEventNoMsg, msgEvent "done"]).map (·.success) = .ok true ∧
    [errEventNoMsg, msgEvent "done"].any (fun e => e.type.eqStr "error") = true :=
  ⟨rfl, rfl⟩

/-- Claim C1 (amended): for well-shaped event sequences the reducer
reports `success = true` iff the tracked error (the `message` payload of
the last error-branch event, `None` when absent) is `None` AND (the
recorded final message text is not the empty string OR a `turn.completed`
event was handled together with at least one captured truthy
command-execution output). -/
theorem c1_success_policy_amended (evs : List CodexEvent)
    (h : ∀ e ∈ evs, wfEvent e = true) :
    (spawn_codex evs).map (·.success) = .ok (
      (errorOf evs).isNull &&
      (!((finalTextOf evs).eqStr "") ||
        (hadTurnOf evs && !(commandOutputsOf evs).isEmpty))) := by
  rw [spawn_codex_wf_eq evs h, pyMap_ok]

/-- Witness for C1: the spec's own scenario — only a command-execution
completion with non-empty output plus a `turn.completed`, no
agent message — yields `success = true`. -/
theorem c1_success_policy_witness :
    (spawn_codex [cmdEvent "out", turnEvent]).map (·.success) = .ok true := by
  have h := c1_success_policy_amended [cmdEvent "out", turnEvent] (by decide)
  rw [h]
  rfl

/-! ## Claim C3 -/

/-- Claim C3, counterexample: with two error events `"A"` then `"B"`, the
reducer's `outcome.error` is `"B"` — the *last* error wins, refuting
"first-seen error wins". -/
theorem c3_counterexample :
    (spawn_codex [errEvent "A", errEvent "B"]).map (·.error) = .ok (.str "B") ∧
    firstErrorOf [errEvent "A", errEvent "B"] = .str "A" ∧
    Json.str "B" ≠ Json.str "A" := by
  refine ⟨rfl, rfl, ?_⟩
  intro hBA
  injection hBA with hs
  exact absurd hs (by decide)

/-- Claim C3 (amended): for well-shaped event sequences `outcome.error`
is the `message` payload of the *last* event handled by the error branch
(`None` when there is none) — each error event overwrites the previous
one. -/
theorem c3_last_error_wins_amended (evs : List CodexEvent)
    (h : ∀ e ∈ evs, wfEvent e = true) :
    (spawn_codex evs).map (·.error) = .ok (errorOf evs) := by
  rw [spawn_codex_wf_eq evs h, pyMap_ok]

/-- Witness for C3: a single error event's message is reported. -/
theorem c3_last_error_wins_witness :
    (spawn_codex [errEvent "A"]).map (·.error) = .ok (.str "A") := by
  have h := c3_last_error_wins_amended [errEvent "A"] (by decide)
  rw [h]
  rfl

/-! ## Claim C4 -/

/-- Claim C4, counterexample: `"[]"` is valid JSON, yet
`parse_codex_event` raises `AttributeError` (only `JSONDecodeError` is
caught; `data.get` on a list raises) instead of returning an Event —
refuting "total and never raises" / "valid JSON always yields an
Event". -/
theorem c4_counterexample :
    parse_codex_event (.ok (.arr [])) = .error "AttributeError" := rfl

/-- Claim C4 (amended): a line that is not valid JSON yields "no event"
(`None`); a line that is a valid JSON *object* yields an Event whose type
is the declared `type` field (the sentinel `"unknown"` only when the
field is absent) with the payload carried verbatim; a line that is valid
JSON but not an object raises `AttributeError`. -/
theorem c4_decoder_amended (d : Except String Json) :
    (∀ e, d = .error e → parse_codex_event d = .ok none) ∧
    (∀ kvs, d = .ok (.obj kvs) →
      parse_codex_event d =
        .ok (some ⟨(List.lookup "type" kvs).getD (.str "unknown"), .obj kvs⟩)) ∧
    (∀ j, d = .ok j → j.isObj = false →
      parse_codex_event d = .error "AttributeError") := by
  refine ⟨?_, ?_, ?_⟩
  · intro e he; subst he; rfl
  · intro kvs hk; subst hk; rfl
  · intro j hj hob
    subst hj
    cases j with
    | obj kvs => exact absurd hob (by simp [Json.isObj])
    | null => rfl
    | bool b => rfl
    | num n => rfl
    | str s => rfl
    | arr l => rfl

/-- Witness for C4: a malformed line gives no event; a well-formed object
line classifies by its declared type. -/
theorem c4_decoder_witness :
    parse_codex_event (.error "Expecting value") = .ok none ∧
    parse_codex_event (.ok (.obj [("type", .str "turn.completed")])) =
      .ok (some ⟨.str "turn.completed", .obj [("type", .str "turn.completed")]⟩) :=
  ⟨(c4_decoder_amended _).1 "Expecting value" rfl,
   (c4_decoder_amended _).2.1 _ rfl⟩

/-! ## Claim C6 -/

/-- The document used in the C6 counterexample: `subtype` claims success
but `type` is not `"result"`. -/
def c6doc : Json :=
  .obj [("type", .str "x"), ("subtype", .str "success"), ("result", .str "boom")]

/-- Claim C6, counterexample: on a document with `subtype = "success"`
but `type ≠ "result"`, the run is not successful (`success = false`) yet
`outcome.error` is `None`, not the document's `result` field `"boom"` —
refuting "when not successful, the failure text is taken from the
document's own result field". -/
theorem c6_counterexample :
    (parse_claude_response (.ok c6doc)).map (fun r => (r.success, r.error)) =
      .ok (false, .null) ∧
    c6doc.getT "result" = .str "boom" := ⟨rfl, rfl⟩

/-- Claim C6 (amended): `success` iff the document declares both
`type = "result"` and `subtype = "success"`; `outcome.error` is `None`
whenever `subtype = "success"` (even if the run is unsuccessful because
`type ≠ "result"`) and the document's `result` field otherwise; input
that is not valid JSON yields `success = false` with a parse-error
message instead of an exception. -/
theorem c6_single_shot_amended (d : Except String Json) :
    (∀ e, d = .error e → parse_claude_response d =
      .ok { success := false, text := .str "",
            error := .str ("Failed to parse JSON response: " ++ e) }) ∧
    (∀ kvs, d = .ok (.obj kvs) → ∃ r, parse_claude_response d = .ok r ∧
      r.success = (((Json.obj kvs).getT "type").eqStr "result" &&
        ((Json.obj kvs).getT "subtype").eqStr "success") ∧
      r.error = (if ((Json.obj kvs).getT "subtype").eqStr "success"
        then Json.null else (Json.obj kvs).getT "result")) := by
  constructor
  · intro e he; subst he; rfl
  · intro kvs hk
    subst hk
    exact ⟨_, rfl, rfl, rfl⟩

/-- Witness for C6: a parse failure yields the parse-error record, and a
proper `type=result, subtype=success` document yields `success = true`
with `error = None`. -/
theorem c6_single_shot_witness :
    parse_claude_response (.error "Expecting value") =
      .ok { success := false, text := .str "",
            error := .str ("Failed to parse JSON response: " ++ "Expecting value") } ∧
    ∃ r, parse_claude_response
        (.ok (.obj [("type", .str "result"), ("subtype", .str "success"),
                    ("result", .str "done")])) = .ok r ∧
      r.success = (((Json.obj [("type", .str "result"), ("subtype", .str "success"),
                    ("result", .str "done")]).getT "type").eqStr "result" &&
        ((Json.obj [("type", .str "result"), ("subtype", .str "success"),
                    ("result", .str "done")]).getT "subtype").eqStr "success") ∧
      r.error = (if ((Json.obj [("type", .str "result"), ("subtype", .str "success"),
                    ("result", .str "done")]).getT "subtype").eqStr "success"
        then Json.null else (Json.obj [("type", .str "result"),
                    ("subtype", .str "success"), ("result", .str "done")]).getT "result") :=
  ⟨(c6_single_shot_amended _).1 "Expecting value" rfl,
   (c6_single_shot_amended _).2 _ rfl⟩

/-! ## Claim C7 -/

/-- Claim C7: when no agent message produced a final text but at least
one command-execution output was captured, the displayed text is the most
recent captured output truncated to 5000 characters; when a final message
exists (non-empty recorded text) it is used unmodified. -/
theorem c7_fallback_text (evs : List CodexEvent)
    (h : ∀ e ∈ evs, wfEvent e = true) :
    (finalTextOf evs = .str "" → commandOutputsOf evs ≠ [] →
      (spawn_codex evs).map (·.text) =
        .ok (truncate5000 (((commandOutputsOf evs).getLast?).getD .null))) ∧
    (finalTextOf evs ≠ .str "" →
      (spawn_codex evs).map (·.text) = .ok (finalTextOf evs)) := by
  rw [spawn_codex_wf_eq evs h, pyMap_ok]
  constructor
  · intro hft hne
    have hcond : (!(finalTextOf evs).truthy && !(commandOutputsOf evs).isEmpty) = true := by
      rw [hft]
      simp [Json.truthy, List.isEmpty_iff, hne]
    rw [if_pos hcond]
  · intro hft
    have htr : (finalTextOf evs).truthy = true := by
      rcases finalTextOf_truthy_or_empty evs with h' | h'
      · exact h'
      · exact absurd h' hft
    have hcond : (!(finalTextOf evs).truthy && !(commandOutputsOf evs).isEmpty) = false := by
      rw [htr]
      rfl
    rw [if_neg (by rw [hcond]; exact Bool.false_ne_true)]

set_option maxRecDepth 8000 in
/-- Witness for C7: with only a command output and a turn completion the
text is the (un-truncated, short) command output; with an agent message
the text is that message. -/
theorem c7_fallback_text_witness :
    (spawn_codex [cmdEvent "hello", turnEvent]).map (·.text) = .ok (.str "hello") ∧
    (spawn_codex [msgEvent "msg"]).map (·.text) = .ok (.str "msg") := by
  constructor
  · have h := (c7_fallback_text [cmdEvent "hello", turnEvent] (by decide)).1 rfl
      (by intro hc; exact List.noConfusion hc)
    rw [h]
    rfl
  · have h := (c7_fallback_text [msgEvent "msg"] (by decide)).2
      (by intro hc; exact absurd (congrArg Json.truthy hc) (by decide))
    rw [h]
    rfl

/-! ## Claim C2 -/

/-- A list of 101 distinct one-character spawn ids. -/
def c2keys : List String :=
  (List.range 101).map (fun n => String.singleton (Char.ofNat (65 + n)))

/-- A list of 101 completion records under distinct ids. -/
def c2xs : List (String × Json) := c2keys.map (fun k => (k, Json.null))

set_option maxRecDepth 20000 in
/-- Claim C2, counterexample: after 101 completions with distinct spawn
ids the completed mapping holds 101 records — beyond the only bound in
the code (the 100-entry "recent" view over it) — and the oldest-inserted
entry is still present: no eviction ever happens. -/
theorem c2_counterexample :
    (completeAll {} c2xs).completed.length = 101 ∧ 100 < 101 ∧
    (List.lookup (String.singleton (Char.ofNat 65))
      (completeAll {} c2xs).completed).isSome = true :=
  ⟨by decide, by decide, by decide⟩

/-- Claim C2 (amended): the completed mapping is unbounded — every
completed spawn id remains a key of the mapping (the code has no eviction
step); only the "recent completed" *view* assembled by
`handle_list_running` is bounded, at the most recent 100 entries. -/
theorem c2_no_eviction_amended (xs : List (String × Json)) :
    (∀ p ∈ xs, p.1 ∈ (completeAll {} xs).completed.map Prod.fst) ∧
    (recentCompletedKeys (completeAll {} xs)).length ≤ 100 := by
  constructor
  · intro p hp
    exact completeAll_mem xs {} p hp
  · simp only [recentCompletedKeys, List.length_drop]
    omega

/-- Witness for C2 (amended): a completed id is retained; the recent view
stays within 100. -/
theorem c2_no_eviction_witness :
    ("a", Json.null).1 ∈ (completeAll {} [("a", Json.null)]).completed.map Prod.fst ∧
    (recentCompletedKeys (completeAll {} [("a", Json.null)])).length ≤ 100 :=
  ⟨(c2_no_eviction_amended [("a", Json.null)]).1 _ (by simp),
   (c2_no_eviction_amended [("a", Json.null)]).2⟩

/-! ## Claim C5 -/

/-- Claim C5, counterexample: an id absent from both in-memory mappings
but present in the persistent logger's active spawns produces a fourth
shape — a "running (from logger)" status, without elapsed seconds — not
`not_found`, refuting "exactly one of three shapes, not_found
otherwise". -/
theorem c5_counterexample :
    handle_get_result [] [] ["x"] "x" 0 = .runningFromLogger ∧
    handle_get_result [] [] ["x"] "x" 0 ≠ .notFound := by
  refine ⟨rfl, ?_⟩
  intro hc
  exact GetResultShape.noConfusion hc

/-- Claim C5 (amended): `result(id)` returns, in priority order: the
stored completed outcome when the id is in the completed mapping; a
running status with elapsed seconds when it is in the running mapping; a
running-from-logger status (no elapsed seconds) when the persistent
logger still lists the id as active; and `not_found` otherwise. -/
theorem c5_priority_amended (completed running : List (String × Json))
    (loggerActive : List String) (id : String) (elapsed : Int) :
    (∀ rec, List.lookup id completed = some rec →
      handle_get_result completed running loggerActive id elapsed = .completedRec rec) ∧
    (List.lookup id completed = none → (List.lookup id running).isSome = true →
      handle_get_result completed running loggerActive id elapsed = .runningInfo elapsed) ∧
    (List.lookup id completed = none → (List.lookup id running).isSome = false →
      loggerActive.contains id = true →
      handle_get_result completed running loggerActive id elapsed = .runningFromLogger) ∧
    (List.lookup id completed = none → (List.lookup id running).isSome = false →
      loggerActive.contains id = false →
      handle_get_result completed running loggerActive id elapsed = .notFound) := by
  unfold handle_get_result
  refine ⟨?_, ?_, ?_, ?_⟩
  · intro rec h
    rw [h]
  · intro h1 h2
    rw [h1, h2, if_pos rfl]
  · intro h1 h2 h3
    rw [h1, h2, if_neg Bool.false_ne_true, h3, if_pos rfl]
  · intro h1 h2 h3
    rw [h1, h2, if_neg Bool.false_ne_true, h3, if_neg Bool.false_ne_true]

/-- Witness for C5: a stored outcome is returned for a completed id, and
a fully unknown id yields `not_found`. -/
theorem c5_priority_witness :
    handle_get_result [("a", .num 1)] [] [] "a" 7 = .completedRec (.num 1) ∧
    handle_get_result [] [] [] "z" 3 = .notFound :=
  ⟨(c5_priority_amended [("a", .num 1)] [] [] "a" 7).1 _ rfl,
   (c5_priority_amended [] [] [] "z" 3).2.2.2 rfl rfl rfl⟩

/-! ## Claim C9 -/

/-- Claim C9: `spawn_claude` returns the launch-failure result (success
false, empty text, error from stderr or the exit code) exactly when the
subprocess exits nonzero with empty stdout; in every other case —
including a nonzero exit with non-empty stdout — stdout is parsed as a
normal response, so success can be true despite a nonzero exit code (see
the witness). -/
theorem c9_launch_failure_policy (rc : Int) (stdout stderr : String)
    (d : Except String Json) :
    (rc ≠ 0 ∧ stdout = "" →
      spawn_claude_post rc stdout stderr d =
        .ok { success := false, text := .str "",
              error := .str (if stderr ≠ "" then stderr
                else "Exit code " ++ toString rc) }) ∧
    ((rc = 0 ∨ stdout ≠ "") →
      spawn_claude_post rc stdout stderr d = parse_claude_response d) := by
  constructor
  · intro h
    unfold spawn_claude_post
    rw [if_pos h]
  · intro h
    unfold spawn_claude_post
    have hn : ¬(rc ≠ 0 ∧ stdout = "") := by
      rcases h with h | h
      · exact fun hc => hc.1 h
      · exact fun hc => h hc.2
    rw [if_neg hn]

/-- Witness for C9: nonzero exit with empty stdout gives the stderr-based
failure; nonzero exit with a `type=result, subtype=success` JSON document
on stdout gives `success = true` despite the exit code. -/
theorem c9_launch_failure_witness :
    spawn_claude_post 1 "" "boom" (.error "Expecting value") =
      .ok { success := false, text := .str "", error := .str "boom" } ∧
    (spawn_claude_post 1 "out" ""
        (.ok (.obj [("type", .str "result"), ("subtype", .str "success")]))).map
      (·.success) = .ok true := by
  constructor
  · have h := (c9_launch_failure_policy 1 "" "boom" (.error "Expecting value")).1
      ⟨by decide, rfl⟩
    rw [h]
    rfl
  · have h := (c9_launch_failure_policy 1 "out" ""
        (.ok (.obj [("type", .str "result"), ("subtype", .str "success")]))).2
      (Or.inr (by decide))
    rw [h]
    rfl

/-! ## Claim C10 -/

/-- Claim C10: with the timeout argument omitted, `handle_spawn_claude`
defaults to 600 seconds when `"test"` occurs in the lowercased task
summary (or prompt, when the summary is absent or empty) and 300 seconds
otherwise; `handle_spawn_codex` defaults to 300 seconds when `"test"`
occurs in the lowercased prompt and 120 seconds otherwise. -/
theorem c10_default_timeouts (ts : Option String) (p q : String) :
    handle_spawn_claude_timeout ts p none =
      (if strContains (strLower (pyOrStr ts p)) "test" then 600 else 300) ∧
    handle_spawn_codex_timeout q none =
      (if strContains (strLower q) "test" then 300 else 120) := by
  constructor
  · simp only [handle_spawn_claude_timeout]
    split <;> rfl
  · simp only [handle_spawn_codex_timeout]
    split <;> rfl

end Agents
